import Mathlib

/-!
Verification of the arxiv-review pipeline: a shallow embedding of
`fetch_arxiv.py` (feed parsing, aggregation) and `prepare_prompt.py`
(record filtering, template rendering), with theorems settling the
specification's claims about them.

Strings are modelled through their character lists (`String.data`), so every
definition is executable and evaluable by the kernel.  The XML layer
(`xml.etree.ElementTree`) and the HTTP transport are external collaborators:
the parser is embedded from the per-item level down, an item being the four
child elements the source reads (`title`, `link`, `description`,
`dc:creator`), each `Option String` for element presence (an element present
with empty text is `some ""`, matching the source's `elem.text or ""`).
-/

namespace ArxivReview

/-! ## Text cleaning (`clean_text`, fetch_arxiv.py lines 31-38) -/

/-- ASCII whitespace as matched by the Python regex class `\s`
(space, tab, newline, carriage return, vertical tab, form feed);
the model restricts attention to the ASCII range. -/
def isSpace (c : Char) : Bool :=
  c == ' ' || c == '\t' || c == '\n' || c == '\r' || c == '\x0b' || c == '\x0c'

/-- Models `html.unescape` restricted to the five predefined XML
character entities; any other ampersand sequence is left unchanged, as
`html.unescape` leaves unknown references intact.  All feed text the
theorems below evaluate is entity-free, where `html.unescape` is the
identity. -/
def unescapeChars : List Char → List Char
  | [] => []
  | '&' :: 'a' :: 'm' :: 'p' :: ';' :: rest => '&' :: unescapeChars rest
  | '&' :: 'l' :: 't' :: ';' :: rest => '<' :: unescapeChars rest
  | '&' :: 'g' :: 't' :: ';' :: rest => '>' :: unescapeChars rest
  | '&' :: 'q' :: 'u' :: 'o' :: 't' :: ';' :: rest => '"' :: unescapeChars rest
  | '&' :: 'a' :: 'p' :: 'o' :: 's' :: ';' :: rest => '\'' :: unescapeChars rest
  | c :: rest => c :: unescapeChars rest

/-- Scans for the next unconsumed `>` and returns the characters after it,
or `none` when no `>` remains. -/
def tagEnd : List Char → Option (List Char)
  | [] => none
  | c :: rest => if c = '>' then some rest else tagEnd rest

/-- The remainder after a match of `<[^>]+>` starting just after a `<`:
at least one non-`>` character followed by a `>`. -/
def tagEnd1 : List Char → Option (List Char)
  | [] => none
  | c :: rest => if c = '>' then none else tagEnd rest

/-- Models `re.sub(r"<[^>]+>", "", text)`: removes every non-overlapping
leftmost match of a `<`, one or more non-`>` characters, and a `>`.
The fuel argument only bounds the recursion so that it is structural
(every step consumes at least one character, so fuel equal to the input
length never runs out); `stripTags` below supplies it. -/
def stripTagsFuel : Nat → List Char → List Char
  | _, [] => []
  | 0, l => l
  | fuel + 1, c :: rest =>
    if c = '<' then
      match tagEnd1 rest with
      | some rest' => stripTagsFuel fuel rest'
      | none => c :: stripTagsFuel fuel rest
    else c :: stripTagsFuel fuel rest

def stripTags (l : List Char) : List Char :=
  stripTagsFuel l.length l

/-- Models `re.sub(r"\s+", " ", text)`: each maximal run of whitespace
becomes a single space.  The flag records whether the previous character
was part of a whitespace run already replaced. -/
def collapseWs : Bool → List Char → List Char
  | _, [] => []
  | prevSpace, c :: rest =>
    if isSpace c then
      if prevSpace then collapseWs true rest
      else ' ' :: collapseWs true rest
    else c :: collapseWs false rest

/-- Models Python `str.strip()` for ASCII whitespace: drops whitespace from
both ends. -/
def stripEnds (l : List Char) : List Char :=
  ((l.dropWhile isSpace).reverse.dropWhile isSpace).reverse

/-- Embedding of `clean_text` (fetch_arxiv.py lines 31-38): HTML-unescape,
remove tags, collapse whitespace runs to a single space, strip the ends.
An empty input short-circuits to the empty string as in the source. -/
def clean_text (text : String) : String :=
  if text = "" then ""
  else ⟨stripEnds (collapseWs false (stripTags (unescapeChars text.data)))⟩

/-! ## arXiv id extraction (`extract_arxiv_id`, fetch_arxiv.py lines 41-45) -/

/-- The group `([0-9]+\.[0-9]+)` of the id regex, matched greedily at the
start of `cs`: a maximal nonempty digit run, a literal dot, and a second
maximal nonempty digit run. -/
def matchIdFrom (cs : List Char) : Option (List Char) :=
  match cs.dropWhile Char.isDigit with
  | '.' :: r2 =>
    if cs.takeWhile Char.isDigit = [] ∨ r2.takeWhile Char.isDigit = [] then none
    else some (cs.takeWhile Char.isDigit ++ '.' :: r2.takeWhile Char.isDigit)
  | _ => none

/-- One attempt of the pattern `arxiv.org/(?:abs|pdf)/([0-9]+\.[0-9]+)` at
the head of `cs`; the unescaped `.` of the source regex matches any
character except a newline. -/
def matchArxivAt (cs : List Char) : Option (List Char) :=
  match cs with
  | 'a' :: 'r' :: 'x' :: 'i' :: 'v' :: dot :: 'o' :: 'r' :: 'g' :: '/' :: rest =>
    if dot = '\n' then none
    else
      match rest with
      | 'a' :: 'b' :: 's' :: '/' :: rest2 => matchIdFrom rest2
      | 'p' :: 'd' :: 'f' :: '/' :: rest2 => matchIdFrom rest2
      | _ => none
  | _ => none

/-- `re.search` semantics: the match at the leftmost position where the
whole pattern succeeds. -/
def searchArxivId : List Char → Option (List Char)
  | [] => none
  | c :: cs =>
    match matchArxivAt (c :: cs) with
    | some r => some r
    | none => searchArxivId cs

/-- Embedding of `extract_arxiv_id` (fetch_arxiv.py lines 41-45): the first
regex match's group, or the empty string when the link does not match. -/
def extract_arxiv_id (link : String) : String :=
  match searchArxivId link.data with
  | some cs => ⟨cs⟩
  | none => ""

/-! ## Feed items and the parser (`parse_rss`, fetch_arxiv.py lines 48-93) -/

/-- One `<item>` element of the feed, reduced to the four child elements the
source reads.  `none` means the child element is absent; a present element
carries its text (`some ""` when the element has no text, matching the
source's `elem.text or ""` and the truthiness test on `creator_elem.text`). -/
structure FeedItem where
  title : Option String
  link : Option String
  description : Option String
  creator : Option String
deriving DecidableEq

/-- One normalized paper dict as built at fetch_arxiv.py lines 81-91. -/
structure PaperRecord where
  id : String
  title : String
  abstract : String
  authors : String
  category : String
  url : String
  pdf : String
deriving DecidableEq

/-- Models `re.sub(r"\s*\(arXiv:[^)]+\)\s*$", "", title)` testing one start
position: optional whitespace, the literal `(arXiv:`, at least one
non-`)` character, a `)`, then only whitespace to the end of the string. -/
def arxivNoteAt (cs : List Char) : Bool :=
  match cs.dropWhile isSpace with
  | '(' :: 'a' :: 'r' :: 'X' :: 'i' :: 'v' :: ':' :: rest =>
    match rest.dropWhile (fun c => c != ')') with
    | ')' :: tail =>
      decide (rest.takeWhile (fun c => c != ')') ≠ []) &&
        decide (tail.dropWhile isSpace = [])
    | _ => false
  | _ => false

/-- Removes the trailing parenthetical arXiv annotation at its leftmost
matching start position, as `re.sub` with an end-anchored pattern does. -/
def stripArxivNote : List Char → List Char
  | [] => []
  | c :: cs => if arxivNoteAt (c :: cs) then [] else c :: stripArxivNote cs

/-- The per-item body of the `parse_rss` loop (fetch_arxiv.py lines 56-91)
over the four child elements read from the item: `none` when the title or
link element is absent or the link yields no arXiv id, otherwise the
normalized record. -/
def parseItemCore (category : String) :
    Option String → Option String → Option String → Option String → Option PaperRecord
  | none, _, _, _ => none
  | some _, none, _, _ => none
  | some titleText, some linkText, descOpt, creatorOpt =>
    if extract_arxiv_id linkText = "" then none
    else
      some
        { id := extract_arxiv_id linkText
          title := ⟨stripArxivNote (clean_text titleText).data⟩
          abstract :=
            match descOpt with
            | some d => clean_text d
            | none => ""
          authors :=
            match creatorOpt with
            | some c => if c = "" then "" else clean_text c
            | none => ""
          category := category
          url := "https://arxiv.org/abs/" ++ extract_arxiv_id linkText
          pdf := "https://arxiv.org/pdf/" ++ extract_arxiv_id linkText ++ ".pdf" }

def parseItem (category : String) (item : FeedItem) : Option PaperRecord :=
  parseItemCore category item.title item.link item.description item.creator

/-- Embedding of `parse_rss` (fetch_arxiv.py lines 48-93) from the item
level down: the records of the items that pass the required-field and
id checks, in feed order. -/
def parse_rss (items : List FeedItem) (category : String) : List PaperRecord :=
  items.filterMap (parseItem category)

/-! ## Aggregation (`main`, fetch_arxiv.py lines 134-157) -/

/-- Lexicographic comparison of character lists by code point, the order
Python's string `<` uses for the sort key at fetch_arxiv.py line 145. -/
def charListLe : List Char → List Char → Bool
  | [], _ => true
  | _ :: _, [] => false
  | a :: as, b :: bs => if a = b then charListLe as bs else decide (a < b)

/-- The sort relation of `all_papers.sort(key=lambda p: p["id"], reverse=True)`:
descending by id under lexicographic comparison. -/
def paperGe (a b : PaperRecord) : Prop :=
  charListLe b.id.data a.id.data = true

instance : DecidableRel paperGe := fun a b =>
  inferInstanceAs (Decidable (charListLe b.id.data a.id.data = true))

theorem charListLe_total : ∀ l₁ l₂, charListLe l₁ l₂ = true ∨ charListLe l₂ l₁ = true := by
  intro l₁
  induction l₁ with
  | nil => intro l₂; left; rfl
  | cons a as ih =>
    intro l₂
    cases l₂ with
    | nil => right; rfl
    | cons b bs =>
      by_cases hab : a = b
      · subst hab
        simpa [charListLe] using ih bs
      · rcases lt_or_gt_of_ne hab with h | h
        · left; simp [charListLe, hab, h]
        · right; simp [charListLe, Ne.symm hab, h]

theorem charListLe_trans : ∀ l₁ l₂ l₃, charListLe l₁ l₂ = true →
    charListLe l₂ l₃ = true → charListLe l₁ l₃ = true := by
  intro l₁
  induction l₁ with
  | nil => intro l₂ l₃ _ _; rfl
  | cons a as ih =>
    intro l₂ l₃ h12 h23
    cases l₂ with
    | nil => simp [charListLe] at h12
    | cons b bs =>
      cases l₃ with
      | nil => simp [charListLe] at h23
      | cons c cs =>
        by_cases hab : a = b <;> by_cases hbc : b = c
        · subst hab; subst hbc
          simp only [charListLe, if_pos rfl] at h12 h23 ⊢
          exact ih bs cs h12 h23
        · subst hab
          simp only [charListLe, if_pos rfl] at h12
          simp only [charListLe, if_neg hbc, decide_eq_true_eq] at h23
          simp [charListLe, if_neg (ne_of_lt h23), h23]
        · subst hbc
          simp only [charListLe, if_neg hab, decide_eq_true_eq] at h12
          simp [charListLe, if_neg hab, h12]
        · simp only [charListLe, if_neg hab, decide_eq_true_eq] at h12
          simp only [charListLe, if_neg hbc, decide_eq_true_eq] at h23
          have hac := lt_trans h12 h23
          simp [charListLe, if_neg (ne_of_lt hac), hac]

instance : IsTotal PaperRecord paperGe :=
  ⟨fun a b => charListLe_total b.id.data a.id.data⟩

instance : IsTrans PaperRecord paperGe :=
  ⟨fun _ _ _ hab hbc => charListLe_trans _ _ _ hbc hab⟩

/-- The dedup loop of `main` (fetch_arxiv.py lines 137-142): walk the
concatenated per-category results, keeping a record only when its id has
not been seen before. -/
def dedupeFirst : List PaperRecord → List String → List PaperRecord
  | [], _ => []
  | p :: rest, seen =>
    if p.id ∈ seen then dedupeFirst rest seen
    else p :: dedupeFirst rest (p.id :: seen)

/-- The number of records the dedup loop discards: occurrences whose id was
already seen at the time they are reached. -/
def dupOccurrences : List PaperRecord → List String → Nat
  | [], _ => 0
  | p :: rest, seen =>
    if p.id ∈ seen then 1 + dupOccurrences rest seen
    else dupOccurrences rest (p.id :: seen)

/-- The persisted artifact built at fetch_arxiv.py lines 152-157 (full mode). -/
structure RecordSet where
  date : String
  categories : List String
  count : Nat
  papers : List PaperRecord
deriving DecidableEq

/-- Embedding of the aggregation in `main` (fetch_arxiv.py lines 134-157):
concatenate the per-category results in request order, dedupe by id with
first occurrence winning, sort descending by id, and wrap with the run
date, the category list and the count.  Python's `list.sort` is a stable
sort by the comparison `paperGe`; after dedup the ids are distinct, so any
sorting algorithm for `paperGe` produces the same list, here insertion
sort. -/
def aggregate (date : String) (categories : List String)
    (results : List (List PaperRecord)) : RecordSet :=
  let deduped := dedupeFirst results.flatten []
  let sorted := deduped.insertionSort paperGe
  { date := date, categories := categories, count := sorted.length, papers := sorted }

/-! ## Template substitution (`str.replace`, prepare_prompt.py lines 41-43, 71-73) -/

/-- Models Python `str.replace` scanning for a nonempty pattern `p :: ps`:
each leftmost non-overlapping occurrence is replaced by `rep`.  The fuel
argument only makes the recursion structural (every step consumes at least
one character, so fuel equal to the input length never runs out). -/
def replaceFuel (p : Char) (ps rep : List Char) : Nat → List Char → List Char
  | _, [] => []
  | 0, l => l
  | fuel + 1, c :: cs =>
    if (p :: ps).isPrefixOf (c :: cs) then rep ++ replaceFuel p ps rep fuel (cs.drop ps.length)
    else c :: replaceFuel p ps rep fuel cs

/-- Embedding of Python `s.replace(old, new)`.  An empty pattern inserts the
replacement before every character and at the end, as in Python. -/
def strReplace (s old new : String) : String :=
  match old.data with
  | [] => ⟨new.data ++ (s.data.map (fun c => c :: new.data)).flatten⟩
  | p :: ps => ⟨replaceFuel p ps new.data s.data.length s.data⟩

/-- Python `old in s`: some position of `s` starts with the pattern. -/
def containsGo (pat : List Char) : List Char → Bool
  | [] => decide (pat = [])
  | c :: cs => pat.isPrefixOf (c :: cs) || containsGo pat cs

def strContains (s pat : String) : Bool :=
  containsGo pat.data s.data

/-! ## JSON values and the filter boundary (prepare_prompt.py lines 59-66) -/

/-- A JSON document as `json.load` produces it.  Numbers are modelled as
integers (no claim involves numeric values). -/
inductive JsonValue where
  | null
  | bool (b : Bool)
  | num (n : Int)
  | str (s : String)
  | arr (items : List JsonValue)
  | obj (fields : List (String × JsonValue))

def JsonValue.isListShape : JsonValue → Bool
  | .arr _ => true
  | _ => false

def JsonValue.isObjShape : JsonValue → Bool
  | .obj _ => true
  | _ => false

def JsonValue.isStrShape : JsonValue → Bool
  | .str _ => true
  | _ => false

/-- Python `dict.get(k, d)` on a JSON object. -/
def jsonGetD (fields : List (String × JsonValue)) (k : String) (d : JsonValue) : JsonValue :=
  match fields.lookup k with
  | some v => v
  | none => d

/-- Python `+` on the values retrieved for the two tiers: list and string
concatenation, numeric addition (booleans adding as 0/1); every other
combination raises a `TypeError`. -/
def pyAdd : JsonValue → JsonValue → Except String JsonValue
  | .arr xs, .arr ys => .ok (.arr (xs ++ ys))
  | .str a, .str b => .ok (.str (a ++ b))
  | .num a, .num b => .ok (.num (a + b))
  | .bool a, .num b => .ok (.num ((if a then 1 else 0) + b))
  | .num a, .bool b => .ok (.num (a + if b then 1 else 0))
  | .bool a, .bool b => .ok (.num ((if a then 1 else 0) + if b then 1 else 0))
  | _, _ => .error "TypeError: unsupported operand for +"

/-- Python `set(x)`, modelled as the list of elements the iterable yields
(membership below is what the source uses the set for): a list yields its
elements, a string its single-character substrings, a dict its keys; any
non-iterable raises a `TypeError`. -/
def pySet : JsonValue → Except String (List JsonValue)
  | .arr xs => .ok xs
  | .str s => .ok (s.data.map (fun c => .str ⟨[c]⟩))
  | .obj fields => .ok (fields.map (fun kv => .str kv.1))
  | _ => .error "TypeError: not iterable"

/-- The `keep_ids` computation of `prepare_abstract_review`
(prepare_prompt.py lines 62-65): a dict combines its `tier1` and `tier2`
entries (defaulting to empty lists) with `+` and turns the result into a
set; anything else is passed to `set` directly. -/
def keepIdsOfSpec (filter_data : JsonValue) : Except String (List JsonValue) :=
  match filter_data with
  | .obj fields =>
    match pyAdd (jsonGetD fields "tier1" (.arr [])) (jsonGetD fields "tier2" (.arr [])) with
    | .error e => .error e
    | .ok combined => pySet combined
  | v => pySet v

/-- Python `p["id"] in keep_ids`: the set holds JSON values; a string id can
only equal a string element. -/
def pyStrInSet (s : String) (ks : List JsonValue) : Bool :=
  ks.any (fun v =>
    match v with
    | .str t => s == t
    | _ => false)

/-- One paper of the reloaded artifact, a flat JSON object with string
values, as both output modes of fetch_arxiv.py produce. -/
abbrev LoadedPaper := List (String × String)

/-- Python `p[k]` on a loaded paper: the value, or a `KeyError`. -/
def dictGet (p : LoadedPaper) (k : String) : Except String String :=
  match p.lookup k with
  | some v => .ok v
  | none => .error ("KeyError: " ++ k)

/-- The list comprehension `[p for p in papers if p["id"] in keep_ids]`
(prepare_prompt.py line 66). -/
def filterByIds (ks : List JsonValue) : List LoadedPaper → Except String (List LoadedPaper)
  | [] => .ok []
  | p :: ps =>
    match dictGet p "id" with
    | .error e => .error e
    | .ok i =>
      match filterByIds ks ps with
      | .error e => .error e
      | .ok rest => if pyStrInSet i ks then .ok (p :: rest) else .ok rest

/-- The optional filtering step of `prepare_abstract_review`
(prepare_prompt.py lines 59-66): with no `--filter-ids` document the papers
pass through; otherwise the effective id set is computed and the papers
narrowed to it. -/
def applyIdFilter (papers : List LoadedPaper) (filter_data : Option JsonValue) :
    Except String (List LoadedPaper) :=
  match filter_data with
  | none => .ok papers
  | some fd =>
    match keepIdsOfSpec fd with
    | .error e => .error e
    | .ok ks => filterByIds ks papers

/-! ## JSON serialization (`json.dumps` as used at prepare_prompt.py lines 39 and 69) -/

def hexDigit (n : Nat) : Char :=
  if n < 10 then Char.ofNat (48 + n) else Char.ofNat (87 + n)

def hex4 (n : Nat) : List Char :=
  [hexDigit (n / 4096 % 16), hexDigit (n / 256 % 16), hexDigit (n / 16 % 16), hexDigit (n % 16)]

/-- One character of a JSON string under `json.dumps` defaults
(`ensure_ascii=True`): the two-character escapes, `\uXXXX` for other
control or non-ASCII characters, surrogate pairs above the basic plane. -/
def jsonEscapeChar (c : Char) : List Char :=
  if c = '"' then ['\\', '"']
  else if c = '\\' then ['\\', '\\']
  else if c = '\n' then ['\\', 'n']
  else if c = '\t' then ['\\', 't']
  else if c = '\r' then ['\\', 'r']
  else if c = '\x08' then ['\\', 'b']
  else if c = '\x0c' then ['\\', 'f']
  else if c.toNat < 32 then '\\' :: 'u' :: hex4 c.toNat
  else if c.toNat < 127 then [c]
  else if c.toNat < 65536 then '\\' :: 'u' :: hex4 c.toNat
  else
    '\\' :: 'u' :: hex4 (55296 + (c.toNat - 65536) / 1024) ++
      '\\' :: 'u' :: hex4 (56320 + (c.toNat - 65536) % 1024)

def jsonStr (s : String) : String :=
  ⟨'"' :: (s.data.map jsonEscapeChar).flatten ++ ['"']⟩

/-- One entry of the title projection built at prepare_prompt.py
lines 34-37: `{"id": ..., "title": ..., "cat": ...}`. -/
structure TitleEntry where
  id : String
  title : String
  cat : String
deriving DecidableEq

/-- `json.dumps` of one projected entry with `indent=None`: Python's
default separators put a space after each colon and comma, and the dict
keys appear in insertion order `id`, `title`, `cat`. -/
def titleEntryJson (t : TitleEntry) : String :=
  "\x7b\"id\": " ++ jsonStr t.id ++ ", \"title\": " ++ jsonStr t.title ++
    ", \"cat\": " ++ jsonStr t.cat ++ "\x7d"

/-- `json.dumps(titles, indent=None)` (prepare_prompt.py line 39): one
line, elements joined by a comma and a space. -/
def titlesJson (ts : List TitleEntry) : String :=
  "[" ++ String.intercalate ", " (ts.map titleEntryJson) ++ "]"

/-- `json.dumps` of one loaded paper with `indent=2`, nested one level
inside the list: keys in order, `": "` after each key, fields separated by
a comma and a newline. -/
def paperObjJson (p : LoadedPaper) : String :=
  match p with
  | [] => "\x7b\x7d"
  | _ =>
    "\x7b\n" ++
      String.intercalate ",\n"
        (p.map (fun kv => "    " ++ jsonStr kv.1 ++ ": " ++ jsonStr kv.2)) ++
      "\n  \x7d"

/-- `json.dumps(papers, indent=2)` (prepare_prompt.py line 69). -/
def papersJsonPretty (papers : List LoadedPaper) : String :=
  match papers with
  | [] => "[]"
  | _ => "[\n" ++ String.intercalate ",\n" (papers.map (fun p => "  " ++ paperObjJson p)) ++ "\n]"

/-! ## The two prepare functions (prepare_prompt.py lines 27-75) -/

/-- The reloaded artifact (the JSON document fetch_arxiv.py wrote), with
its papers as flat string objects. -/
structure Artifact where
  date : String
  categories : List String
  count : Nat
  papers : List LoadedPaper

/-- The projection loop at prepare_prompt.py lines 34-37: each paper's
`id`, `title` and `category` entries are looked up, a missing key raising
a `KeyError`. -/
def titlesProjection : List LoadedPaper → Except String (List TitleEntry)
  | [] => .ok []
  | p :: ps =>
    match dictGet p "id" with
    | .error e => .error e
    | .ok i =>
      match dictGet p "title" with
      | .error e => .error e
      | .ok t =>
        match dictGet p "category" with
        | .error e => .error e
        | .ok c =>
          match titlesProjection ps with
          | .error e => .error e
          | .ok rest => .ok (⟨i, t, c⟩ :: rest)

/-- Embedding of `prepare_title_filter` (prepare_prompt.py lines 27-45)
past the file loads: project the papers, serialize compactly, then
substitute the three placeholder tokens in template order. -/
def prepare_title_filter (data : Artifact) (interests template : String) :
    Except String String :=
  match titlesProjection data.papers with
  | .error e => .error e
  | .ok titles =>
    .ok (strReplace
      (strReplace (strReplace template "{INTERESTS}" interests)
        "{TITLES_JSON}" (titlesJson titles))
      "{DATE}" data.date)

/-- Embedding of `prepare_abstract_review` (prepare_prompt.py lines 48-75)
past the file loads: optionally narrow the papers by the filter document,
serialize with indentation, then substitute the three placeholder tokens. -/
def prepare_abstract_review (data : Artifact) (filter_data : Option JsonValue)
    (interests template : String) : Except String String :=
  match applyIdFilter data.papers filter_data with
  | .error e => .error e
  | .ok papers =>
    .ok (strReplace
      (strReplace (strReplace template "{INTERESTS}" interests)
        "{PAPERS_JSON}" (papersJsonPretty papers))
      "{DATE}" data.date)

/-! ## Artifact construction from the fetch stage (fetch_arxiv.py lines 147-157) -/

/-- A full-mode paper as serialized into the artifact: the seven fields of
the dict built at fetch_arxiv.py lines 81-91, in insertion order. -/
def fullPaperDict (p : PaperRecord) : LoadedPaper :=
  [("id", p.id), ("title", p.title), ("abstract", p.abstract), ("authors", p.authors),
    ("category", p.category), ("url", p.url), ("pdf", p.pdf)]

/-- A titles-only paper as produced at fetch_arxiv.py lines 148-149:
only `id`, `title` and `url` survive the projection. -/
def titlesOnlyPaper (p : PaperRecord) : LoadedPaper :=
  [("id", p.id), ("title", p.title), ("url", p.url)]

/-- The artifact written in `--titles-only` mode: the aggregated record
set with each record reduced to `id`, `title`, `url`. -/
def aggregateTitlesOnly (date : String) (categories : List String)
    (results : List (List PaperRecord)) : Artifact :=
  let rs := aggregate date categories results
  { date := rs.date, categories := rs.categories, count := rs.count,
    papers := rs.papers.map titlesOnlyPaper }

/-- The artifact written in full mode. -/
def aggregateFull (date : String) (categories : List String)
    (results : List (List PaperRecord)) : Artifact :=
  let rs := aggregate date categories results
  { date := rs.date, categories := rs.categories, count := rs.count,
    papers := rs.papers.map fullPaperDict }

/-! ## Helper lemmas: the sort relation is the lexicographic order -/

theorem charListLe_iff_not_lex : ∀ l₁ l₂ : List Char,
    charListLe l₁ l₂ = true ↔ ¬ List.Lex (· < ·) l₂ l₁ := by
  intro l₁
  induction l₁ with
  | nil =>
    intro l₂
    exact iff_of_true rfl (List.Lex.not_nil_right _ _)
  | cons a as ih =>
    intro l₂
    cases l₂ with
    | nil =>
      exact iff_of_false (by simp [charListLe]) (fun h => h List.Lex.nil)
    | cons b bs =>
      by_cases hab : a = b
      · subst hab
        rw [show charListLe (a :: as) (a :: bs) = charListLe as bs from by
          simp [charListLe]]
        rw [ih bs]
        exact (not_congr List.Lex.cons_iff).symm
      · simp only [charListLe, if_neg hab, decide_eq_true_eq]
        constructor
        · intro hlt hlex
          cases hlex with
          | cons h => exact hab rfl
          | rel h => exact absurd hlt (lt_asymm h)
        · intro hnl
          rcases lt_trichotomy a b with h | h | h
          · exact h
          · exact absurd h hab
          · exact absurd (List.Lex.rel h) hnl

theorem lex_lt_iff (l₁ l₂ : List Char) : l₁ < l₂ ↔ List.Lex (· < ·) l₁ l₂ :=
  Iff.rfl

theorem charListLe_iff_le (l₁ l₂ : List Char) : charListLe l₁ l₂ = true ↔ l₁ ≤ l₂ :=
  (charListLe_iff_not_lex l₁ l₂).trans
    (((not_congr (lex_lt_iff l₂ l₁)).symm).trans not_lt)

theorem paperGe_imp_le {a b : PaperRecord} (h : paperGe a b) : b.id ≤ a.id :=
  String.le_iff_toList_le.mpr ((charListLe_iff_le _ _).mp h)

/-! ## Helper lemmas: the dedup loop -/

theorem dedupeFirst_nodup_and_fresh : ∀ (l : List PaperRecord) (seen : List String),
    ((dedupeFirst l seen).map (fun p => p.id)).Nodup ∧
      ∀ p ∈ dedupeFirst l seen, p.id ∉ seen := by
  intro l
  induction l with
  | nil => intro seen; exact ⟨List.nodup_nil, by intro p hp; simp [dedupeFirst] at hp⟩
  | cons q rest ih =>
    intro seen
    by_cases hq : q.id ∈ seen
    · rw [show dedupeFirst (q :: rest) seen = dedupeFirst rest seen from by
        simp [dedupeFirst, hq]]
      exact ih seen
    · rw [show dedupeFirst (q :: rest) seen = q :: dedupeFirst rest (q.id :: seen) from by
        simp [dedupeFirst, hq]]
      obtain ⟨hnodup, hfresh⟩ := ih (q.id :: seen)
      refine ⟨List.nodup_cons.mpr ⟨?_, hnodup⟩, ?_⟩
      · intro hmem
        rcases List.mem_map.mp hmem with ⟨p, hp, hpid⟩
        exact (hfresh p hp) (hpid ▸ List.mem_cons_self _ _)
      · intro p hp
        rcases List.mem_cons.mp hp with rfl | hp'
        · exact hq
        · exact fun hmem => (hfresh p hp') (List.mem_cons_of_mem _ hmem)

theorem dedupeFirst_length_add : ∀ (l : List PaperRecord) (seen : List String),
    (dedupeFirst l seen).length + dupOccurrences l seen = l.length := by
  intro l
  induction l with
  | nil => intro seen; rfl
  | cons q rest ih =>
    intro seen
    by_cases hq : q.id ∈ seen
    · simp only [dedupeFirst, dupOccurrences, if_pos hq, List.length_cons]
      have := ih seen
      omega
    · simp only [dedupeFirst, dupOccurrences, if_neg hq, List.length_cons]
      have := ih (q.id :: seen)
      omega

theorem dedupeFirst_first_occurrence : ∀ (l : List PaperRecord) (seen : List String)
    (p : PaperRecord), p ∈ dedupeFirst l seen →
      l.find? (fun q => q.id == p.id) = some p := by
  intro l
  induction l with
  | nil => intro seen p hp; simp [dedupeFirst] at hp
  | cons q rest ih =>
    intro seen p hp
    by_cases hq : q.id ∈ seen
    · rw [show dedupeFirst (q :: rest) seen = dedupeFirst rest seen from by
        simp [dedupeFirst, hq]] at hp
      have hfresh := (dedupeFirst_nodup_and_fresh rest seen).2 p hp
      have hne : q.id ≠ p.id := fun he => hfresh (he ▸ hq)
      rw [List.find?_cons_of_neg _ (by simpa using hne)]
      exact ih seen p hp
    · rw [show dedupeFirst (q :: rest) seen = q :: dedupeFirst rest (q.id :: seen) from by
        simp [dedupeFirst, hq]] at hp
      rcases List.mem_cons.mp hp with rfl | hp'
      · exact List.find?_cons_of_pos _ (by simp)
      · have hfresh := (dedupeFirst_nodup_and_fresh rest (q.id :: seen)).2 p hp'
        have hne : q.id ≠ p.id := fun he => hfresh (he ▸ List.mem_cons_self _ _)
        rw [List.find?_cons_of_neg _ (by simpa using hne)]
        exact ih (q.id :: seen) p hp'

/-! ## Claim theorems C1 and C2 -/

/-- Claim C1: every RecordSet produced by aggregation has `count` equal to
the length of its papers, no two papers with the same id, and papers in
descending lexicographic id order (if A precedes B then `B.id ≤ A.id`). -/
theorem aggregate_recordset_invariants (date : String) (cats : List String)
    (results : List (List PaperRecord)) :
    (aggregate date cats results).count = (aggregate date cats results).papers.length ∧
    ((aggregate date cats results).papers.map (fun p => p.id)).Nodup ∧
    (aggregate date cats results).papers.Pairwise (fun a b => b.id ≤ a.id) := by
  refine ⟨rfl, ?_, ?_⟩
  · have hperm := (List.perm_insertionSort paperGe (dedupeFirst results.flatten [])).map
      (fun p => p.id)
    exact hperm.nodup_iff.mpr (dedupeFirst_nodup_and_fresh results.flatten []).1
  · exact (List.sorted_insertionSort paperGe (dedupeFirst results.flatten [])).imp
      (fun h => paperGe_imp_le h)

/-- Claim C2: aggregation dedupes by id with first occurrence winning.
The count is the total number of concatenated input records minus the
number of duplicate occurrences (records whose id was already seen), and
every surviving record is the first record of the concatenated input
carrying its id (so its `category` is the one of the first-seen feed,
in category-request order). -/
theorem aggregate_dedupe_first_wins (date : String) (cats : List String)
    (results : List (List PaperRecord)) :
    (aggregate date cats results).count =
      results.flatten.length - dupOccurrences results.flatten [] ∧
    dupOccurrences results.flatten [] ≤ results.flatten.length ∧
    ∀ p ∈ (aggregate date cats results).papers,
      results.flatten.find? (fun q => q.id == p.id) = some p := by
  have hlen := dedupeFirst_length_add results.flatten []
  have hcount : (aggregate date cats results).count =
      (dedupeFirst results.flatten []).length :=
    (List.perm_insertionSort paperGe (dedupeFirst results.flatten [])).length_eq
  refine ⟨by omega, by omega, ?_⟩
  intro p hp
  have hp' : p ∈ dedupeFirst results.flatten [] :=
    (List.perm_insertionSort paperGe (dedupeFirst results.flatten [])).mem_iff.mp hp
  exact dedupeFirst_first_occurrence results.flatten [] p hp'

/-- A record as seen first in the `quant-ph` feed. -/
def paperWitA : PaperRecord :=
  { id := "2501.00002", title := "T", abstract := "", authors := "", category := "quant-ph",
    url := "https://arxiv.org/abs/2501.00002", pdf := "https://arxiv.org/pdf/2501.00002.pdf" }

/-- The same paper cross-listed in a second feed. -/
def paperWitB : PaperRecord :=
  { id := "2501.00002", title := "T", abstract := "", authors := "", category := "cond-mat",
    url := "https://arxiv.org/abs/2501.00002", pdf := "https://arxiv.org/pdf/2501.00002.pdf" }

/-- Witness for C2 at a concrete input: two categories contributing the same
id; the survivor is the first-seen record. -/
theorem aggregate_dedupe_first_wins_witness :
    paperWitA ∈ (aggregate "2025-01-08" ["quant-ph", "cond-mat"]
        [[paperWitA], [paperWitB]]).papers ∧
    [[paperWitA], [paperWitB]].flatten.find? (fun q => q.id == paperWitA.id) =
      some paperWitA :=
  ⟨by decide,
    (aggregate_dedupe_first_wins "2025-01-08" ["quant-ph", "cond-mat"]
      [[paperWitA], [paperWitB]]).2.2 paperWitA (by decide)⟩

/-! ## Helper lemmas: shape of extracted ids -/

/-- The `<digits>.<digits>` shape the id regex group guarantees. -/
def isArxivIdShape (s : String) : Prop :=
  ∃ d1 d2 : List Char, d1 ≠ [] ∧ d2 ≠ [] ∧ (∀ c ∈ d1, c.isDigit = true) ∧
    (∀ c ∈ d2, c.isDigit = true) ∧ s.data = d1 ++ '.' :: d2

theorem matchIdFrom_shape (cs l : List Char) (h : matchIdFrom cs = some l) :
    ∃ d1 d2 : List Char, d1 ≠ [] ∧ d2 ≠ [] ∧ (∀ c ∈ d1, c.isDigit = true) ∧
      (∀ c ∈ d2, c.isDigit = true) ∧ l = d1 ++ '.' :: d2 := by
  unfold matchIdFrom at h
  split at h
  · split at h
    · simp at h
    · rename_i hne
      push_neg at hne
      refine ⟨cs.takeWhile Char.isDigit, _, hne.1, hne.2, ?_, ?_, (Option.some.inj h).symm⟩
      · intro c hc; exact List.mem_takeWhile_imp hc
      · intro c hc; exact List.mem_takeWhile_imp hc
  · simp at h

theorem matchArxivAt_shape (cs l : List Char) (h : matchArxivAt cs = some l) :
    ∃ d1 d2 : List Char, d1 ≠ [] ∧ d2 ≠ [] ∧ (∀ c ∈ d1, c.isDigit = true) ∧
      (∀ c ∈ d2, c.isDigit = true) ∧ l = d1 ++ '.' :: d2 := by
  unfold matchArxivAt at h
  split at h
  · split at h
    · simp at h
    · split at h
      · exact matchIdFrom_shape _ _ h
      · exact matchIdFrom_shape _ _ h
      · simp at h
  · simp at h

theorem searchArxivId_shape : ∀ l cs : List Char, searchArxivId l = some cs →
    ∃ d1 d2 : List Char, d1 ≠ [] ∧ d2 ≠ [] ∧ (∀ c ∈ d1, c.isDigit = true) ∧
      (∀ c ∈ d2, c.isDigit = true) ∧ cs = d1 ++ '.' :: d2 := by
  intro l
  induction l with
  | nil => intro cs h; simp [searchArxivId] at h
  | cons c rest ih =>
    intro cs h
    unfold searchArxivId at h
    split at h
    · rename_i heq
      cases h
      exact matchArxivAt_shape _ _ heq
    · exact ih cs h

theorem extract_arxiv_id_shape (link : String) (h : extract_arxiv_id link ≠ "") :
    isArxivIdShape (extract_arxiv_id link) := by
  unfold extract_arxiv_id at h ⊢
  cases heq : searchArxivId link.data with
  | none => rw [heq] at h; exact absurd rfl h
  | some cs =>
    rcases searchArxivId_shape _ _ heq with ⟨d1, d2, h1, h2, h3, h4, h5⟩
    exact ⟨d1, d2, h1, h2, h3, h4, h5⟩

/-! ## Claim theorems C3, C4 and C5 -/

/-- Claim C3: every record `parse_rss` emits has a non-empty id of the
`<digits>.<digits>` shape extracted from the item link, and its `url` and
`pdf` fields are the two fixed templates applied to that id; items whose
identifier cannot be resolved never yield a record. -/
theorem parse_rss_ids_and_urls (items : List FeedItem) (category : String)
    (r : PaperRecord) (hr : r ∈ parse_rss items category) :
    r.id ≠ "" ∧ isArxivIdShape r.id ∧
      r.url = "https://arxiv.org/abs/" ++ r.id ∧
      r.pdf = "https://arxiv.org/pdf/" ++ r.id ++ ".pdf" := by
  rcases List.mem_filterMap.mp hr with ⟨item, -, heq⟩
  unfold parseItem at heq
  cases htitle : item.title with
  | none => rw [htitle] at heq; simp [parseItemCore] at heq
  | some titleText =>
    cases hlink : item.link with
    | none => rw [htitle, hlink] at heq; simp [parseItemCore] at heq
    | some linkText =>
      rw [htitle, hlink] at heq
      by_cases hid : extract_arxiv_id linkText = ""
      · simp [parseItemCore, hid] at heq
      · simp only [parseItemCore, if_neg hid] at heq
        cases heq
        exact ⟨hid, extract_arxiv_id_shape _ hid, rfl, rfl⟩

/-- A complete item whose link resolves. -/
def c3Item : FeedItem :=
  { title := some "Some Paper", link := some "https://arxiv.org/abs/2501.00042",
    description := none, creator := none }

/-- The record `parse_rss` builds from `c3Item`. -/
def c3Record : PaperRecord :=
  { id := "2501.00042", title := "Some Paper", abstract := "", authors := "",
    category := "quant-ph", url := "https://arxiv.org/abs/2501.00042",
    pdf := "https://arxiv.org/pdf/2501.00042.pdf" }

/-- Witness for C3 at a concrete feed. -/
theorem parse_rss_ids_and_urls_witness :
    c3Record ∈ parse_rss [c3Item] "quant-ph" ∧
      (c3Record.id ≠ "" ∧ isArxivIdShape c3Record.id ∧
        c3Record.url = "https://arxiv.org/abs/" ++ c3Record.id ∧
        c3Record.pdf = "https://arxiv.org/pdf/" ++ c3Record.id ++ ".pdf") :=
  ⟨by decide, parse_rss_ids_and_urls [c3Item] "quant-ph" c3Record (by decide)⟩

/-- The required-fields check of the parser: both a title element and a link
element are present. -/
def hasRequired (item : FeedItem) : Bool :=
  item.title.isSome && item.link.isSome

/-- Claim C4: on a feed whose complete items all have resolvable links,
items missing a title or link element are exactly the ones excluded:
N items with K missing a required field parse to N − K records, with no
error raised. -/
theorem parse_rss_excludes_missing_fields (items : List FeedItem) (category : String)
    (hres : ∀ item ∈ items, hasRequired item = true →
      extract_arxiv_id (item.link.getD "") ≠ "") :
    (parse_rss items category).length +
        items.countP (fun i => ! hasRequired i) = items.length ∧
      (parse_rss items category).length =
        items.length - items.countP (fun i => ! hasRequired i) := by
  have main : (parse_rss items category).length +
      items.countP (fun i => ! hasRequired i) = items.length := by
    induction items with
    | nil => rfl
    | cons it rest ih =>
      have hrest := fun item hm hreq => hres item (List.mem_cons_of_mem _ hm) hreq
      have ih' := ih hrest
      cases htitle : it.title with
      | none =>
        have hpi : parseItem category it = none := by
          unfold parseItem; rw [htitle]; simp [parseItemCore]
        have hreq : hasRequired it = false := by simp [hasRequired, htitle]
        simp [parse_rss, List.filterMap_cons, hpi, List.countP_cons, hreq] at ih' ⊢
        omega
      | some titleText =>
        cases hlink : it.link with
        | none =>
          have hpi : parseItem category it = none := by
            unfold parseItem; rw [htitle, hlink]; simp [parseItemCore]
          have hreq : hasRequired it = false := by simp [hasRequired, hlink]
          simp [parse_rss, List.filterMap_cons, hpi, List.countP_cons, hreq] at ih' ⊢
          omega
        | some linkText =>
          have hreq : hasRequired it = true := by simp [hasRequired, htitle, hlink]
          have hid : extract_arxiv_id linkText ≠ "" := by
            have := hres it (List.mem_cons_self _ _) hreq
            rw [hlink] at this
            exact this
          have hpi : ∃ rec, parseItem category it = some rec := by
            unfold parseItem
            rw [htitle, hlink]
            exact ⟨_, by simp only [parseItemCore, if_neg hid]; rfl⟩
          rcases hpi with ⟨rec, hpi⟩
          simp [parse_rss, List.filterMap_cons, hpi, List.countP_cons, hreq] at ih' ⊢
          omega
  exact ⟨main, by omega⟩

/-- An incomplete item: no link element. -/
def c4ItemNoLink : FeedItem :=
  { title := some "No Link Here", link := none, description := none, creator := none }

/-- An incomplete item: no title element. -/
def c4ItemNoTitle : FeedItem :=
  { title := none, link := some "https://arxiv.org/abs/2501.00007",
    description := none, creator := none }

/-- Witness for C4: three items, two missing a required field, one record. -/
theorem parse_rss_excludes_missing_fields_witness :
    (∀ item ∈ [c3Item, c4ItemNoLink, c4ItemNoTitle], hasRequired item = true →
        extract_arxiv_id (item.link.getD "") ≠ "") ∧
      (parse_rss [c3Item, c4ItemNoLink, c4ItemNoTitle] "quant-ph").length +
          [c3Item, c4ItemNoLink, c4ItemNoTitle].countP (fun i => ! hasRequired i) = 3 ∧
        (parse_rss [c3Item, c4ItemNoLink, c4ItemNoTitle] "quant-ph").length =
          3 - [c3Item, c4ItemNoLink, c4ItemNoTitle].countP (fun i => ! hasRequired i) :=
  ⟨by decide,
    parse_rss_excludes_missing_fields [c3Item, c4ItemNoLink, c4ItemNoTitle] "quant-ph"
      (by decide)⟩

/-- The item of the concrete C5 scenario that parses. -/
def c5ItemWithLink : FeedItem :=
  { title := some "A Title. (arXiv:2501.00001v1 [quant-ph])"
    link := some "https://arxiv.org/abs/2501.00001"
    description := none, creator := none }

/-- The item of the concrete C5 scenario with no link element. -/
def c5ItemNoLink : FeedItem :=
  { title := some "Another Title", link := none, description := none, creator := none }

/-- Claim C5: the two-item `quant-ph` scenario parses to exactly one record
with id `2501.00001` and the cleaned title with its trailing arXiv
annotation stripped. -/
theorem parse_rss_concrete_scenario :
    (parse_rss [c5ItemWithLink, c5ItemNoLink] "quant-ph").map
        (fun r => (r.id, r.title)) = [("2501.00001", "A Title.")] := by
  decide

/-! ## Helper lemmas: filtering and template replacement -/

theorem filterByIds_eq_filter (ks : List JsonValue) :
    ∀ papers : List LoadedPaper, (∀ p ∈ papers, (p.lookup "id").isSome = true) →
      filterByIds ks papers =
        .ok (papers.filter (fun p => pyStrInSet ((p.lookup "id").getD "") ks)) := by
  intro papers
  induction papers with
  | nil => intro _; rfl
  | cons p ps ih =>
    intro h
    have hp := h p (List.mem_cons_self _ _)
    cases hi : p.lookup "id" with
    | none => rw [hi] at hp; simp at hp
    | some i =>
      have hrest := ih (fun q hq => h q (List.mem_cons_of_mem _ hq))
      simp only [filterByIds, dictGet, hi, hrest, List.filter_cons, Option.getD_some]
      by_cases hin : pyStrInSet i ks = true
      · rw [if_pos hin, if_pos hin]
      · rw [if_neg hin, if_neg hin]

theorem isPrefixOf_self : ∀ l : List Char, l.isPrefixOf l = true := by
  intro l
  induction l with
  | nil => rfl
  | cons c cs ih => simp [List.isPrefixOf, ih]

theorem replaceFuel_of_not_contains (p : Char) (ps rep : List Char) :
    ∀ (fuel : Nat) (l : List Char), containsGo (p :: ps) l = false →
      replaceFuel p ps rep fuel l = l := by
  intro fuel
  induction fuel with
  | zero => intro l _; cases l <;> rfl
  | succ n ih =>
    intro l h
    cases l with
    | nil => rfl
    | cons c cs =>
      simp only [containsGo, Bool.or_eq_false_iff] at h
      simp only [replaceFuel, if_neg (by simp [h.1] :
        ¬ ((p :: ps).isPrefixOf (c :: cs) = true))]
      rw [ih cs h.2]

/-- A token absent from a string is a no-op for `str.replace`. -/
theorem strReplace_of_not_contains (s pat rep : String)
    (h : strContains s pat = false) : strReplace s pat rep = s := by
  unfold strContains at h
  unfold strReplace
  cases hp : pat.data with
  | nil =>
    rw [hp] at h
    exfalso
    cases hs : s.data with
    | nil => rw [hs] at h; simp [containsGo] at h
    | cons c cs => rw [hs] at h; simp [containsGo, List.isPrefixOf] at h
  | cons p ps =>
    rw [hp] at h
    show String.mk (replaceFuel p ps rep.data s.data.length s.data) = s
    rw [replaceFuel_of_not_contains p ps rep.data s.data.length s.data h]

/-- Replacing a template that is exactly the token yields the value. -/
theorem strReplace_token_self (pat rep : String) (hne : pat.data ≠ []) :
    strReplace pat pat rep = rep := by
  unfold strReplace
  cases hp : pat.data with
  | nil => exact absurd hp hne
  | cons p ps =>
    show String.mk (replaceFuel p ps rep.data (p :: ps).length (p :: ps)) = rep
    have h1 : (p :: ps).isPrefixOf (p :: ps) = true := isPrefixOf_self _
    rw [show replaceFuel p ps rep.data (p :: ps).length (p :: ps) =
        rep.data ++ replaceFuel p ps rep.data ps.length (ps.drop ps.length) from by
      simp only [List.length_cons, replaceFuel, if_pos h1]]
    rw [List.drop_length]
    have h2 : replaceFuel p ps rep.data ps.length [] = [] := by
      cases ps.length <;> rfl
    rw [h2, List.append_nil]

/-! ## Claim theorems C6, C7 and C8 -/

/-- Claim C6: filtering keeps exactly the records whose id is in the
effective identifier set, in original order (it equals `List.filter` and is
a sublist of the input); an empty set yields the empty result; the tiered
document with tiers `[X]` and `[Y]` filters exactly like the flat document
`[X, Y]`. -/
theorem filter_records_by_spec :
    (∀ (papers : List LoadedPaper) (ks : List JsonValue),
      (∀ p ∈ papers, (p.lookup "id").isSome = true) →
      ∃ res, filterByIds ks papers = .ok res ∧ res.Sublist papers ∧
        res = papers.filter (fun p => pyStrInSet ((p.lookup "id").getD "") ks)) ∧
    (∀ papers : List LoadedPaper, (∀ p ∈ papers, (p.lookup "id").isSome = true) →
      filterByIds [] papers = .ok []) ∧
    (∀ (papers : List LoadedPaper) (x y : String),
      applyIdFilter papers
          (some (.obj [("tier1", .arr [.str x]), ("tier2", .arr [.str y])])) =
        applyIdFilter papers (some (.arr [.str x, .str y]))) := by
  refine ⟨?_, ?_, ?_⟩
  · intro papers ks h
    exact ⟨_, filterByIds_eq_filter ks papers h, List.filter_sublist _, rfl⟩
  · intro papers h
    rw [filterByIds_eq_filter [] papers h]
    have hnil : ∀ qs : List LoadedPaper,
        qs.filter (fun p => pyStrInSet ((p.lookup "id").getD "") []) = [] := by
      intro qs
      induction qs with
      | nil => rfl
      | cons p ps ih => simp [List.filter_cons, pyStrInSet, ih]
    rw [hnil]
  · intro papers x y
    rfl

/-- Witness for C6 at a concrete record list and id set. -/
theorem filter_records_by_spec_witness :
    (∀ p ∈ ([[("id", "a"), ("title", "t")], [("id", "b")]] : List LoadedPaper),
        (p.lookup "id").isSome = true) ∧
      ∃ res, filterByIds [.str "a"] [[("id", "a"), ("title", "t")], [("id", "b")]] =
          .ok res ∧
        res.Sublist [[("id", "a"), ("title", "t")], [("id", "b")]] ∧
        res = List.filter (fun p => pyStrInSet ((p.lookup "id").getD "") [.str "a"])
          [[("id", "a"), ("title", "t")], [("id", "b")]] :=
  ⟨by decide,
    filter_records_by_spec.1 [[("id", "a"), ("title", "t")], [("id", "b")]]
      [.str "a"] (by decide)⟩

/-- Counterexample to C7 as stated: a JSON string is neither a list nor a
tiered object, yet the boundary does not reject it — `set("X")` succeeds
and yields the set of the string's characters, and the whole
abstract-review preparation succeeds. -/
theorem filter_spec_string_not_rejected :
    (JsonValue.str "X").isListShape = false ∧
      (JsonValue.str "X").isObjShape = false ∧
      keepIdsOfSpec (.str "X") = .ok [.str "X"] ∧
      prepare_abstract_review ⟨"2025-01-08", ["quant-ph"], 1, [[("id", "2501.00002")]]⟩
          (some (.str "X")) "i" "{PAPERS_JSON}" = .ok "[]" :=
  ⟨rfl, rfl, rfl, rfl⟩

/-- Claim C7 as amended: a filter document that is neither a list nor an
object nor a string raises an uncaught `TypeError` that surfaces to the
caller as the result of the whole preparation (a string, however, is
accepted and treated as the set of its characters — see the
counterexample). -/
theorem filter_spec_rejects_non_iterable (v : JsonValue)
    (harr : v.isListShape = false) (hobj : v.isObjShape = false)
    (hstr : v.isStrShape = false) (data : Artifact) (interests template : String) :
    keepIdsOfSpec v = .error "TypeError: not iterable" ∧
      prepare_abstract_review data (some v) interests template =
        .error "TypeError: not iterable" := by
  cases v with
  | null => exact ⟨rfl, rfl⟩
  | bool b => exact ⟨rfl, rfl⟩
  | num n => exact ⟨rfl, rfl⟩
  | str s => simp [JsonValue.isStrShape] at hstr
  | arr xs => simp [JsonValue.isListShape] at harr
  | obj fs => simp [JsonValue.isObjShape] at hobj

/-- Witness for the amended C7 at the concrete input `null`. -/
theorem filter_spec_rejects_non_iterable_witness :
    JsonValue.null.isListShape = false ∧ JsonValue.null.isObjShape = false ∧
      JsonValue.null.isStrShape = false ∧
      (keepIdsOfSpec .null = .error "TypeError: not iterable" ∧
        prepare_abstract_review ⟨"2025-01-08", [], 0, []⟩ (some .null) "i" "t" =
          .error "TypeError: not iterable") :=
  ⟨rfl, rfl, rfl,
    filter_spec_rejects_non_iterable .null rfl rfl rfl ⟨"2025-01-08", [], 0, []⟩ "i" "t"⟩

/-- Claim C8: replacement of a token absent from the string is a no-op (so
rendering never errors and unmatched text is preserved); rendering the
template consisting solely of `{DATE}` with the date `2025-01-08` yields
exactly `2025-01-08`; an unrecognized placeholder `{FOO}` is left intact. -/
theorem render_missing_token_noop :
    (∀ s pat rep : String, strContains s pat = false → strReplace s pat rep = s) ∧
      (∀ interests : String,
        prepare_title_filter ⟨"2025-01-08", [], 0, []⟩ interests "{DATE}" =
          .ok "2025-01-08") ∧
      (∀ interests : String,
        prepare_title_filter ⟨"2025-01-08", [], 0, []⟩ interests "{FOO} {DATE}" =
          .ok "{FOO} 2025-01-08") := by
  refine ⟨fun s pat rep h => strReplace_of_not_contains s pat rep h, ?_, ?_⟩
  · intro interests
    show Except.ok (strReplace (strReplace (strReplace "{DATE}" "{INTERESTS}" interests)
      "{TITLES_JSON}" (titlesJson [])) "{DATE}" "2025-01-08") = .ok "2025-01-08"
    rw [strReplace_of_not_contains "{DATE}" "{INTERESTS}" interests (by decide)]
    rfl
  · intro interests
    show Except.ok (strReplace (strReplace
        (strReplace "{FOO} {DATE}" "{INTERESTS}" interests)
      "{TITLES_JSON}" (titlesJson [])) "{DATE}" "2025-01-08") = .ok "{FOO} 2025-01-08"
    rw [strReplace_of_not_contains "{FOO} {DATE}" "{INTERESTS}" interests (by decide)]
    rfl

/-- Witness for C8: a concrete no-op replacement and the concrete renders. -/
theorem render_missing_token_noop_witness :
    strContains "hello world" "{DATE}" = false ∧
      strReplace "hello world" "{DATE}" "2025-01-08" = "hello world" ∧
      prepare_title_filter ⟨"2025-01-08", [], 0, []⟩ "my interests" "{DATE}" =
        .ok "2025-01-08" ∧
      prepare_title_filter ⟨"2025-01-08", [], 0, []⟩ "my interests" "{FOO} {DATE}" =
        .ok "{FOO} 2025-01-08" :=
  ⟨by decide, render_missing_token_noop.1 "hello world" "{DATE}" "2025-01-08" (by decide),
    render_missing_token_noop.2.1 "my interests",
    render_missing_token_noop.2.2 "my interests"⟩

/-! ## Claim theorems C9 and C10 -/

/-- Modelled from the specification's words, for comparison with the code:
a compact, minimal-whitespace JSON serialization of the record list reduced
to exactly the fields `id`, `title` and `category`. -/
def specCompactTitlesJson (ts : List TitleEntry) : String :=
  "[" ++ String.intercalate ","
      (ts.map (fun t => "\x7b\"id\":" ++ jsonStr t.id ++ ",\"title\":" ++ jsonStr t.title ++
        ",\"category\":" ++ jsonStr t.cat ++ "\x7d")) ++ "]"

/-- Counterexample to C9 as stated: on a one-record artifact the value
substituted for `{TITLES_JSON}` is Python's default-separator serialization
with key `cat`, which differs from the minimal-whitespace `id`/`title`/
`category` serialization the claim describes. -/
theorem title_filter_json_not_spec_compact :
    prepare_title_filter ⟨"2025-01-08", ["quant-ph"], 1, [fullPaperDict paperWitA]⟩ "i"
        "{TITLES_JSON}" =
      .ok "[\x7b\"id\": \"2501.00002\", \"title\": \"T\", \"cat\": \"quant-ph\"\x7d]" ∧
    "[\x7b\"id\": \"2501.00002\", \"title\": \"T\", \"cat\": \"quant-ph\"\x7d]" ≠
      specCompactTitlesJson [⟨"2501.00002", "T", "quant-ph"⟩] ∧
    titlesProjection [fullPaperDict paperWitA] = .ok [⟨"2501.00002", "T", "quant-ph"⟩] :=
  ⟨rfl, by decide, rfl⟩

/-- Claim C9 as amended: the title-filter profile substitutes for
`{TITLES_JSON}` the single-line `json.dumps` serialization of the records
projected to keys `id`, `title` and `cat` (the category value under key
`cat`), one object per record in artifact order, with Python's default
separators (a space after each colon and comma, no newlines). -/
theorem title_filter_json_amended (papers : List LoadedPaper) (date interests : String)
    (cats : List String) (n : Nat) (ts : List TitleEntry)
    (hproj : titlesProjection papers = .ok ts)
    (hdate : strContains (titlesJson ts) "{DATE}" = false) :
    prepare_title_filter ⟨date, cats, n, papers⟩ interests "{TITLES_JSON}" =
      .ok (titlesJson ts) := by
  have hstep : prepare_title_filter ⟨date, cats, n, papers⟩ interests "{TITLES_JSON}" =
      match titlesProjection papers with
      | .error e => .error e
      | .ok titles =>
        .ok (strReplace (strReplace (strReplace "{TITLES_JSON}" "{INTERESTS}" interests)
          "{TITLES_JSON}" (titlesJson titles)) "{DATE}" date) := rfl
  rw [hstep, hproj]
  show Except.ok (strReplace (strReplace (strReplace "{TITLES_JSON}"
      "{INTERESTS}" interests) "{TITLES_JSON}" (titlesJson ts)) "{DATE}" date) =
    .ok (titlesJson ts)
  rw [strReplace_of_not_contains "{TITLES_JSON}" "{INTERESTS}" interests (by decide)]
  rw [strReplace_token_self "{TITLES_JSON}" (titlesJson ts) (by decide)]
  rw [strReplace_of_not_contains (titlesJson ts) "{DATE}" date hdate]

/-- Witness for the amended C9 on a one-record artifact. -/
theorem title_filter_json_amended_witness :
    titlesProjection [fullPaperDict paperWitA] = .ok [⟨"2501.00002", "T", "quant-ph"⟩] ∧
      strContains (titlesJson [⟨"2501.00002", "T", "quant-ph"⟩]) "{DATE}" = false ∧
      prepare_title_filter ⟨"2025-01-08", ["quant-ph"], 1, [fullPaperDict paperWitA]⟩ "i"
          "{TITLES_JSON}" = .ok (titlesJson [⟨"2501.00002", "T", "quant-ph"⟩]) :=
  ⟨rfl, by decide,
    title_filter_json_amended [fullPaperDict paperWitA] "2025-01-08" "i" ["quant-ph"] 1
      [⟨"2501.00002", "T", "quant-ph"⟩] rfl (by decide)⟩

theorem titlesProjection_titlesOnly (p : PaperRecord) (rest : List LoadedPaper) :
    titlesProjection (titlesOnlyPaper p :: rest) = .error "KeyError: category" := rfl

/-- Claim C10: the title-filter preparation looks up `category` in every
record, so a non-empty artifact produced in titles-only mode (records
carrying only `id`, `title`, `url`) makes it fail with a `KeyError` instead
of producing a prompt. -/
theorem titles_only_artifact_keyerror (date : String) (cats : List String)
    (results : List (List PaperRecord)) (interests template : String)
    (hne : (aggregate date cats results).papers ≠ []) :
    prepare_title_filter (aggregateTitlesOnly date cats results) interests template =
      .error "KeyError: category" := by
  unfold prepare_title_filter
  have hpap : (aggregateTitlesOnly date cats results).papers =
      (aggregate date cats results).papers.map titlesOnlyPaper := rfl
  rw [hpap]
  cases hpp : (aggregate date cats results).papers with
  | nil => exact absurd hpp hne
  | cons p rest =>
    rw [List.map_cons, titlesProjection_titlesOnly]

/-- Witness for C10 on a one-record titles-only artifact. -/
theorem titles_only_artifact_keyerror_witness :
    (aggregate "2025-01-08" ["quant-ph"] [[paperWitA]]).papers ≠ [] ∧
      prepare_title_filter (aggregateTitlesOnly "2025-01-08" ["quant-ph"] [[paperWitA]])
          "i" "{TITLES_JSON}" = .error "KeyError: category" :=
  ⟨by decide,
    titles_only_artifact_keyerror "2025-01-08" ["quant-ph"] [[paperWitA]] "i"
      "{TITLES_JSON}" (by decide)⟩

end ArxivReview
